import Mathlib

/-!
Verification development for the MySQL dialect module
(`lib/sqlalchemy/databases/mysql.py`).

The Python source is shallowly embedded: each relevant class/method is
translated into an executable Lean definition over `String` / `List Char` /
`Option`, with Python exceptions modelled by an explicit error type.
-/

namespace MySQLDialect

/-- Python exceptions that the embedded code can raise. -/
inductive PyErr where
  | indexError : PyErr
  | typeError : PyErr
  | attributeError : PyErr
  | nameError (missing : String) : PyErr
  | argumentError (msg : String) : PyErr
deriving DecidableEq, Repr

/-- Python `"%s" % v` for an optional integer: `None` prints as `"None"`,
an integer prints in decimal. -/
def pyStr : Option Int → String
  | none => "None"
  | some i => toString i

/-- The concrete MySQL type descriptors of the module: `MSNumeric`,
`MSDouble`, `MSFloat`, `MSInteger`, `MSSmallInteger`, `MSDateTime`,
`MSDate`, `MSTime`, `MSText`, `MSString`, `MSChar`, `MSBinary`,
`MSBoolean`.  Numeric parameters are the `precision` / `length`
attributes, `none` standing for Python `None`. -/
inductive ColType where
  | msNumeric (precision length : Option Int)
  | msDouble (precision length : Option Int)
  | msFloat (precision : Option Int)
  | msInteger
  | msSmallInteger
  | msDateTime
  | msDate
  | msTime
  | msText
  | msString (length : Option Int)
  | msChar (length : Option Int)
  | msBinary (length : Option Int)
  | msBoolean
deriving DecidableEq, Repr

/-- `get_col_spec` of each descriptor class, translated clause by clause
from the source.  `MSNumeric` renders
`"NUMERIC(%(precision)s, %(length)s)"` without checking presence;
`MSDouble` renders parameterized only when both attributes are set;
`MSBinary` renders `"BINARY(%d)"` when `length is not None and
length <= 255`, else `"BLOB"`. -/
def ColType.get_col_spec : ColType → String
  | .msNumeric p l => "NUMERIC(" ++ pyStr p ++ ", " ++ pyStr l ++ ")"
  | .msDouble p l =>
      match p, l with
      | some p, some l => "DOUBLE(" ++ toString p ++ ", " ++ toString l ++ ")"
      | _, _ => "DOUBLE"
  | .msFloat p =>
      match p with
      | some p => "FLOAT(" ++ toString p ++ ")"
      | none => "FLOAT"
  | .msInteger => "INTEGER"
  | .msSmallInteger => "SMALLINT"
  | .msDateTime => "DATETIME"
  | .msDate => "DATE"
  | .msTime => "TIME"
  | .msText => "TEXT"
  | .msString l => "VARCHAR(" ++ pyStr l ++ ")"
  | .msChar l => "CHAR(" ++ pyStr l ++ ")"
  | .msBinary l =>
      match l with
      | some n => if n ≤ 255 then "BINARY(" ++ toString n ++ ")" else "BLOB"
      | none => "BLOB"
  | .msBoolean => "BOOLEAN"

/-- `MSDouble.__init__`: raises `ArgumentError` when exactly one of
`precision`, `length` is `None`, otherwise constructs the descriptor. -/
def msDoubleInit (precision length : Option Int) : Except PyErr ColType :=
  if (precision = none ∧ length ≠ none) ∨ (precision ≠ none ∧ length = none) then
    .error (.argumentError "You must specify both precision and length or omit both altogether.")
  else
    .ok (.msDouble precision length)

/-- `isinstance(column.type, sqltypes.Integer)` for the descriptor model:
`sqltypes.Smallinteger` subclasses `sqltypes.Integer` (the abstract type
module is outside this file; the spec calls both the "integer category"). -/
def ColType.isIntegerCategory : ColType → Bool
  | .msInteger => true
  | .msSmallInteger => true
  | _ => false

/-- Python `\s` over ASCII strings: space, tab, newline, carriage return,
vertical tab, form feed. -/
def isPySpace (c : Char) : Bool :=
  c = ' ' || c = '\t' || c = '\n' || c = '\r' || c = '\x0b' || c = '\x0c'

/-- Python `\w` over ASCII strings: letters, digits, underscore. -/
def isWordChar (c : Char) : Bool :=
  ('a' ≤ c && c ≤ 'z') || ('A' ≤ c && c ≤ 'Z') || ('0' ≤ c && c ≤ '9') || c = '_'

/-- Python `str.strip()`: whitespace removed from both ends. -/
def pyStrip (s : List Char) : List Char :=
  ((s.dropWhile isPySpace).reverse.dropWhile isPySpace).reverse

/-- Consume a literal pattern piece from the head of the subject. -/
def stripLit : List Char → List Char → Option (List Char)
  | [], s => some s
  | _ :: _, [] => none
  | p :: ps, c :: cs => if c = p then stripLit ps cs else none

/-- Consume a literal pattern piece case-insensitively (`re.I`). -/
def stripLitCI : List Char → List Char → Option (List Char)
  | [], s => some s
  | _ :: _, [] => none
  | p :: ps, c :: cs => if c.toUpper = p.toUpper then stripLitCI ps cs else none

/-- The regex piece `` `? ``: greedy optional backtick — first try consuming
one, fall back to the empty match when the continuation fails. -/
def optBacktick (s : List Char) (k : List Char → Option α) : Option α :=
  match s with
  | '`' :: rest =>
      match k rest with
      | some r => some r
      | none => k s
  | _ => k s

/-- The regex piece `\s*`: greedy with backtracking — consume as much
whitespace as possible, giving characters back when the continuation
fails. -/
def wsStar : List Char → (List Char → Option α) → Option α
  | [], k => k []
  | c :: rest, k =>
      if isPySpace c then
        match wsStar rest k with
        | some r => some r
        | none => k (c :: rest)
      else k (c :: rest)

/-- The regex piece `.+?` (non-greedy, `.` not matching a newline):
capture at least one character, shortest first.  The continuation receives
the characters captured so far and the remainder. -/
def ngPlus (k : List Char → List Char → Option α) : List Char → List Char → Option α
  | _, [] => none
  | acc, c :: rest =>
      if c = '\n' then none
      else
        match k (acc ++ [c]) rest with
        | some r => some r
        | none => ngPlus k (acc ++ [c]) rest

/-- One attempt, anchored at the head of `s`, of the foreign-key pattern
`fkpat` of `MySQLDialect.moretableinfo`:
`FOREIGN KEY\s*\(` `` `? `` `(?P<name>.+?)` `` `? `` `\)\s*REFERENCES\s*`
`` `? `` `(?P<reftable>.+?)` `` `? `` `\s*\(` `` `? `` `(?P<refcol>.+?)`
`` `? `` `\)`.  Returns the three captures and the remainder after the
match. -/
def matchFKAt (s : List Char) : Option ((List Char × List Char × List Char) × List Char) :=
  (stripLit "FOREIGN KEY".data s).bind fun s =>
  wsStar s fun s =>
  (stripLit "(".data s).bind fun s =>
  optBacktick s fun s =>
  ngPlus (fun name s =>
    optBacktick s fun s =>
    (stripLit ")".data s).bind fun s =>
    wsStar s fun s =>
    (stripLit "REFERENCES".data s).bind fun s =>
    wsStar s fun s =>
    optBacktick s fun s =>
    ngPlus (fun reftable s =>
      optBacktick s fun s =>
      wsStar s fun s =>
      (stripLit "(".data s).bind fun s =>
      optBacktick s fun s =>
      ngPlus (fun refcol s =>
        optBacktick s fun s =>
        (stripLit ")".data s).map fun s => ((name, reftable, refcol), s))
        [] s)
      [] s)
    [] s

/-- `re.finditer(fkpat, desc)`: scan left to right; at each position try
the pattern, on a match record the captures and resume after the match
(non-overlapping), otherwise advance one character.  The fuel starts at the
subject length and every step consumes at least one character, so it never
runs out before the subject does. -/
def findFKsAux : Nat → List Char → List (List Char × List Char × List Char)
  | 0, _ => []
  | _, [] => []
  | fuel + 1, c :: t =>
      match matchFKAt (c :: t) with
      | some (caps, rest) => caps :: findFKsAux fuel rest
      | none => findFKsAux fuel t

def findFKs (s : List Char) : List (List Char × List Char × List Char) :=
  findFKsAux s.length s

/-- Python dict assignment `d[k] = v` on an association list: replace the
value at the first occurrence of the key, else append a new entry. -/
def dictSet : List (String × String) → String → String → List (String × String)
  | [], k, v => [(k, v)]
  | p :: d, k, v => if p.1 = k then (k, v) :: d else p :: dictSet d k v

/-- Python `d.get(k)` on an association list. -/
def dictGet : List (String × String) → String → Option String
  | [], _ => none
  | p :: d, k => if p.1 = k then some p.2 else dictGet d k

/-- The loop `for match in re.finditer(fkpat, desc):
foreignkeyD[name] = reftable + "." + refcol` of `moretableinfo`. -/
def buildFKDict (ms : List (List Char × List Char × List Char)) : List (String × String) :=
  ms.foldl (fun d m => dictSet d (String.mk m.1) (String.mk m.2.1 ++ "." ++ String.mk m.2.2)) []

/-- `re.search(r'\)[^\)]*\Z', desc)`: the pattern matches at a position
holding a `)` that no later `)` follows, so its leftmost (and only) match
starts at the last `)` of the subject.  Returns the suffix from there. -/
def lastParenTail : List Char → Option (List Char)
  | [] => none
  | c :: rest =>
      if c = ')' && !(rest.contains ')') then some (c :: rest)
      else lastParenTail rest

/-- Word-character test of position `i` of `s` (out of range counts as
non-word). -/
def isWordAt (s : List Char) (i : Nat) : Bool :=
  match s.get? i with
  | some c => isWordChar c
  | none => false

/-- Python `\b` at position `i` of `s`. -/
def boundaryAt (s : List Char) (i : Nat) : Bool :=
  (decide (1 ≤ i) && isWordAt s (i - 1)) != isWordAt s i

/-- The regex piece `(?P<ttype>.+)\b` applied to `rem`: `.+` is greedy
(`.` stops at the first newline) and backtracks to the longest capture
ending at a word boundary; at least one character is required. -/
def greedyCapAux (rem : List Char) : Nat → Option (List Char)
  | 0 => none
  | k + 1 => if boundaryAt rem (k + 1) then some (rem.take (k + 1)) else greedyCapAux rem k

def greedyCap (rem : List Char) : Option (List Char) :=
  greedyCapAux rem (rem.takeWhile (fun c => c ≠ '\n')).length

/-- One attempt of `\b(?:TYPE|ENGINE)=(?P<ttype>.+)\b` (with `re.I`)
anchored at the head of `s`; `prevWord` tells whether the character just
before `s` is a word character (for the leading `\b`; both alternatives
start with a word character). -/
def tryEngineMarker (prevWord : Bool) (s : List Char) : Option (List Char) :=
  if prevWord then none
  else
    match stripLitCI "TYPE=".data s with
    | some rem => greedyCap rem
    | none =>
        match stripLitCI "ENGINE=".data s with
        | some rem => greedyCap rem
        | none => none

/-- `re.search` of the engine marker pattern: leftmost match wins. -/
def engineScan (prevWord : Bool) : List Char → Option (List Char)
  | [] => none
  | c :: rest =>
      match tryEngineMarker prevWord (c :: rest) with
      | some w => some w
      | none => engineScan (isWordChar c) rest

/-- The marker search over the slice `desc[lastparen.start():]` (a fresh
string in Python, so the leading `\b` sees a string start). -/
def engineFromTail (t : List Char) : Option (List Char) :=
  engineScan false t

/-- The `tabletype` computation of `moretableinfo`: `''` when the subject
has no `)` or when the marker search fails, else the captured text. -/
def tableTypeOf (desc : List Char) : String :=
  match lastParenTail desc with
  | some t =>
      match engineFromTail t with
      | some w => String.mk w
      | none => ""
  | none => ""

/-- `MySQLDialect.moretableinfo` applied to the fetched DDL text: strips
it, extracts the table type from the text starting at the last `)`, and
folds the foreign-key matches into `foreignkeyD`.  Returns
`(tabletype, foreignkeyD)`. -/
def moretableinfo (rawDDL : String) : String × List (String × String) :=
  let desc := pyStrip rawDDL.data
  (tableTypeOf desc, buildFKDict (findFKs desc))

/-- The target recorded by the last foreign-key match whose local column
is `n` (used to state the last-match-wins property of `foreignkeyD`). -/
def lastFKTarget (ms : List (List Char × List Char × List Char)) (n : String) : Option String :=
  match ms with
  | [] => none
  | m :: rest =>
      match lastFKTarget rest n with
      | some t => some t
      | none =>
          if String.mk m.1 = n then some (String.mk m.2.1 ++ "." ++ String.mk m.2.2)
          else none

/-- `MySQLCompiler.limit_clause`, translated line by line: starts from the
empty string, appends `" \n LIMIT " + str(limit)` when a limit is present,
and when an offset is present first appends the sentinel
`" \n LIMIT 18446744073709551615"` if no limit was given, then
`" OFFSET " + str(offset)`. -/
def limit_clause (limit offset : Option Nat) : String :=
  let text := ""
  let text := match limit with
    | some l => text ++ " \n LIMIT " ++ toString l
    | none => text
  match offset with
  | some o =>
      let text := match limit with
        | none => text ++ " \n LIMIT 18446744073709551615"
        | some _ => text
      text ++ " OFFSET " ++ toString o
  | none => text

/-- A foreign-key reference as the schema generator reads it:
`column.foreign_key.column.table.name` and `column.foreign_key.column.name`. -/
structure FKRef where
  tableName : String
  columnName : String
deriving DecidableEq, Repr

/-- A `schema.Column` as consumed by
`MySQLSchemaGenerator.get_column_specification`: its name, its (adapted)
type descriptor, the rendered default literal
(`get_column_default_string`, `None` when absent), the `nullable` and
`primary_key` flags and the optional foreign key. -/
structure DDLColumn where
  name : String
  ctype : ColType
  default : Option String
  nullable : Bool
  primaryKey : Bool
  foreignKey : Option FKRef
deriving DecidableEq, Repr

/-- `MySQLSchemaGenerator.get_column_specification`, translated statement
by statement: name and type, then `" DEFAULT ..."` when a default is
present, `" NOT NULL"` when not nullable; when the column is a primary
key, `" PRIMARY KEY"` unless `override_pk`, and `" AUTO_INCREMENT"` when
it has no foreign key, is the first primary key and has an
integer-category type; finally the inline foreign-key clause. -/
def get_column_specification (c : DDLColumn) (override_pk first_pk : Bool) : String :=
  let colspec := c.name ++ " " ++ c.ctype.get_col_spec
  let colspec := match c.default with
    | some d => colspec ++ " DEFAULT " ++ d
    | none => colspec
  let colspec := if !c.nullable then colspec ++ " NOT NULL" else colspec
  let colspec :=
    if c.primaryKey then
      let colspec := if !override_pk then colspec ++ " PRIMARY KEY" else colspec
      if c.foreignKey.isNone && first_pk && c.ctype.isIntegerCategory then
        colspec ++ " AUTO_INCREMENT"
      else colspec
    else colspec
  match c.foreignKey with
  | some fk => colspec ++ ", FOREIGN KEY (" ++ c.name ++ ") REFERENCES " ++
      fk.tableName ++ "(" ++ fk.columnName ++ ")"
  | none => colspec

/-- `re.match(r'(\w+)(\(.*?\))?', type)` of `reflecttable`: group 1 is the
leading run of word characters (no match when the string does not start
with one — `match.group` then raises `AttributeError`); group 2, when a
`(` follows, is the non-greedy parenthesized chunk up to the first `)`
(with `.` not crossing a newline), parentheses included; otherwise group 2
is `None`. -/
def matchTypeString (t : List Char) : Option (List Char × Option (List Char)) :=
  match t with
  | [] => none
  | c :: _ =>
      if isWordChar c then
        let kw := t.takeWhile isWordChar
        let rest := t.dropWhile isWordChar
        match rest with
        | '(' :: r =>
            let content := r.takeWhile (fun x => x ≠ ')' && x ≠ '\n')
            match r.drop content.length with
            | ')' :: _ => some (kw, some ('(' :: content ++ [')']))
            | _ => some (kw, none)
        | _ => some (kw, none)
      else none

/-- `re.findall(r'(\d+)', args)`: the maximal digit runs of the argument
chunk, left to right. -/
def findIntRuns : List Char → List (List Char)
  | [] => []
  | c :: rest =>
      if c.isDigit then
        (c :: rest.takeWhile Char.isDigit) :: findIntRuns (rest.dropWhile Char.isDigit)
      else findIntRuns rest
termination_by s => s.length
decreasing_by
  all_goals simp_wf
  all_goals simp [Nat.lt_succ_iff]
  · exact List.Sublist.length_le (List.dropWhile_sublist _)

/-- Python `int(a)` on a run of decimal digits. -/
def digitRunToInt (run : List Char) : Int :=
  Int.ofNat (run.foldl (fun n c => n * 10 + (c.toNat - '0'.toNat)) 0)

/-- The constructors (classes) stored in `ischema_names`; `coltype` holds
one of these until the parsed integer arguments are applied. -/
inductive TypeCtor where
  | ctInteger | ctSmallInteger | ctString | ctChar | ctText | ctNumeric
  | ctFloat | ctDouble | ctDateTime | ctDate | ctTime | ctBinary
deriving DecidableEq, Repr

/-- The module-level `ischema_names` table. -/
def ischema_names : List (String × TypeCtor) :=
  [("int", .ctInteger), ("smallint", .ctSmallInteger), ("tinyint", .ctSmallInteger),
   ("varchar", .ctString), ("char", .ctChar), ("text", .ctText),
   ("decimal", .ctNumeric), ("float", .ctFloat), ("double", .ctDouble),
   ("timestamp", .ctDateTime), ("datetime", .ctDateTime), ("date", .ctDate),
   ("time", .ctTime), ("binary", .ctBinary), ("blob", .ctBinary)]

/-- `ischema_names.get(coltype)` (without the default). -/
def ischemaLookup (k : String) : Option TypeCtor :=
  (ischema_names.find? (fun p => p.1 = k)).map (fun p => p.2)

/-- The call `coltype(*[int(a) for a in args])`.  Modelled from the spec
for the constructors living in `sqlalchemy.types`, which is not under
`src/`: per the spec the descriptors take "zero, one, or two arguments
depending on type" and integer arguments such as `int(11)` are "captured
but not semantically required", and the fallback string descriptor never
fails; accordingly extra positional arguments are tolerated.
`MSDouble.__init__`, which IS in the source, keeps its source behavior
(the both-or-neither validation). -/
def applyCtor (ct : TypeCtor) (args : List Int) : Except PyErr ColType :=
  match ct with
  | .ctInteger => .ok .msInteger
  | .ctSmallInteger => .ok .msSmallInteger
  | .ctString => .ok (.msString args.head?)
  | .ctChar => .ok (.msChar args.head?)
  | .ctText => .ok .msText
  | .ctNumeric => .ok (.msNumeric args.head? (args.drop 1).head?)
  | .ctFloat => .ok (.msFloat args.head?)
  | .ctDouble => msDoubleInit args.head? (args.drop 1).head?
  | .ctDateTime => .ok .msDateTime
  | .ctDate => .ok .msDate
  | .ctTime => .ok .msTime
  | .ctBinary => .ok (.msBinary args.head?)

/-- When the type string has no parenthesized argument list, `coltype`
stays the class object and flows into the column unparameterized; modelled
as the descriptor with unset numeric attributes. -/
def defaultCtor : TypeCtor → ColType
  | .ctInteger => .msInteger
  | .ctSmallInteger => .msSmallInteger
  | .ctString => .msString none
  | .ctChar => .msChar none
  | .ctText => .msText
  | .ctNumeric => .msNumeric none none
  | .ctFloat => .msFloat none
  | .ctDouble => .msDouble none none
  | .ctDateTime => .msDateTime
  | .ctDate => .msDate
  | .ctTime => .msTime
  | .ctBinary => .msBinary none

/-- The `schema.Column` built by one iteration of the `describe` loop. -/
structure ReflectedColumn where
  name : Option String
  coltype : ColType
  fkey : Option String
  primaryKey : Bool
  nullable : Bool
  default : Option String
deriving DecidableEq, Repr

/-- One iteration of the `describe` loop of `reflecttable`: index the row
positionally (`row[0]` … `row[4]`, raising `IndexError` past its end, in
order), split the type string (`re.match` on a `None` type raises
`TypeError`; a failed match raises `AttributeError` at `match.group`),
resolve the keyword in `ischema_names` with the `MSString` fallback, apply
the constructor to the parsed integers when an argument list is present,
and build the column, attaching a foreign key looked up in
`foreignkeyD`.  `nullable` is `row[2] == 'YES'` and `primary_key` is
`row[3] == 'PRI'`. -/
def processRow (foreignkeyD : List (String × String)) (row : List (Option String)) :
    Except PyErr ReflectedColumn :=
  match row.get? 0 with
  | none => .error .indexError
  | some name =>
  match row.get? 1 with
  | none => .error .indexError
  | some type? =>
  match row.get? 2 with
  | none => .error .indexError
  | some v2 =>
  match row.get? 3 with
  | none => .error .indexError
  | some v3 =>
  match row.get? 4 with
  | none => .error .indexError
  | some v4 =>
  match type? with
  | none => .error .typeError
  | some ty =>
  match matchTypeString ty.data with
  | none => .error .attributeError
  | some (kw, args?) =>
      let ct := (ischemaLookup (String.mk kw)).getD .ctString
      let coltypeE : Except PyErr ColType :=
        match args? with
        | none => .ok (defaultCtor ct)
        | some args => applyCtor ct ((findIntRuns args).map digitRunToInt)
      match coltypeE with
      | .error e => .error e
      | .ok coltype =>
          .ok { name := name, coltype := coltype,
                fkey := name.bind (fun nm => dictGet foreignkeyD nm),
                primaryKey := v3 = some "PRI",
                nullable := v2 = some "YES",
                default := v4 }

/-- The mutable state `reflecttable` works on: the table name, the
`mysql_engine` keyword argument and the appended columns. -/
structure SATable where
  name : String
  mysqlEngine : Option String
  columns : List ReflectedColumn
deriving DecidableEq, Repr

/-- The `describe` row loop of `reflecttable`: each parsed column is
appended to the table in place; a raising row aborts the loop, leaving the
columns appended so far on the table. -/
def reflectLoop (foreignkeyD : List (String × String)) (t : SATable) :
    List (List (Option String)) → SATable × Option PyErr
  | [] => (t, none)
  | row :: rest =>
      match processRow foreignkeyD row with
      | .ok c => reflectLoop foreignkeyD { t with columns := t.columns ++ [c] } rest
      | .error e => (t, some e)

/-- `MySQLDialect.reflecttable`: runs `moretableinfo` on the
`SHOW CREATE TABLE` result first (`c.fetchone()[1].strip()` raises
`TypeError` when the result has no row, `IndexError` when the row lacks
the DDL field, and `AttributeError` when that field is `None`), then sets
`table.kwargs['mysql_engine'] = tabletype`, then runs the `describe` row
loop.  Returns the table as mutated so far together with the exception
raised, if any. -/
def reflecttable (t : SATable) (showCreate : Option (List (Option String)))
    (rows : List (List (Option String))) : SATable × Option PyErr :=
  match showCreate with
  | none => (t, some .typeError)
  | some screrow =>
      match screrow.get? 1 with
      | none => (t, some .indexError)
      | some none => (t, some .attributeError)
      | some (some ddl) =>
          let info := moretableinfo ddl
          let t := { t with mysqlEngine := some info.1 }
          reflectLoop info.2 t rows

/-- The columns a row list yields when every row parses (used to state
which prefix of the loop succeeded). -/
def reflectRows (foreignkeyD : List (String × String)) :
    List (List (Option String)) → Except PyErr (List ReflectedColumn)
  | [] => .ok []
  | row :: rest =>
      match processRow foreignkeyD row with
      | .ok c => (reflectRows foreignkeyD rest).map (fun cs => c :: cs)
      | .error e => .error e

/-- Whether the module namespace of `mysql.py` binds the name `text`: the
module imports `sys`, `StringIO`, `string`, `types`, `re`, `datetime`,
`sql`, `engine`, `schema`, `ansisql`, `default`, `sqltypes`, `ischema`,
`exceptions` and binds `mysql`, the type classes, `colspecs`,
`ischema_names`, `engine`, `descriptor`, the dialect/compiler/generator
classes and `dialect` — but never `text`, and Python has no such
builtin. -/
def moduleBindsText : Bool := false

/-- `MySQLDialect.get_default_schema_name`: when the memo attribute
`_default_schema_name` is absent it evaluates
`text("select database()", self).scalar()` — but the bare name `text` is
unbound in the module namespace, so the call raises `NameError` before
assigning the attribute; when the attribute is present its value is
returned.  `cache` is the attribute (absent = `none`), `dbResult` the
value the query would produce if the name resolved; the second component
is the attribute after the call. -/
def get_default_schema_name (cache : Option String) (dbResult : String) :
    Except PyErr String × Option String :=
  match cache with
  | some v => (.ok v, some v)
  | none =>
      if moduleBindsText then (.ok dbResult, some dbResult)
      else (.error (.nameError "text"), none)

end MySQLDialect

namespace MySQLDialect

/-- C1 counterexample: with `limit=10, offset=None` the compiler emits
`" \n LIMIT 10"`, not exactly `"LIMIT 10"` — every clause carries a
leading `" \n "` separator. -/
theorem limit_clause_not_bare : limit_clause (some 10) none ≠ "LIMIT 10" ∧
    limit_clause (some 10) none = " \n LIMIT 10" := by
  constructor
  · decide
  · rfl

/-- C1 (amended): the pagination clause renders `" \n LIMIT <limit>"` when
only the limit is present, `" \n LIMIT 18446744073709551615 OFFSET <offset>"`
when only the offset is present, `" \n LIMIT <limit> OFFSET <offset>"` when
both are present (the sentinel being the maximum 64-bit unsigned value),
and the empty string when neither is present. -/
theorem limit_clause_cases :
    limit_clause none none = "" ∧
    (∀ l : Nat, limit_clause (some l) none = " \n LIMIT " ++ toString l) ∧
    (∀ o : Nat, limit_clause none (some o) =
      " \n LIMIT 18446744073709551615 OFFSET " ++ toString o) ∧
    (∀ l o : Nat, limit_clause (some l) (some o) =
      " \n LIMIT " ++ toString l ++ " OFFSET " ++ toString o) ∧
    (18446744073709551615 : Nat) = 2 ^ 64 - 1 := by
  refine ⟨rfl, fun l => rfl, fun o => ?_, fun l o => ?_, by norm_num⟩
  · simp [limit_clause]
  · simp [limit_clause]

/-- C4: constructing `MSDouble` with exactly one of precision/length raises
`ArgumentError` before any rendering; with both given it succeeds and
renders `"DOUBLE(<precision>, <scale>)"`; with neither it succeeds and
renders the bare `"DOUBLE"`. -/
theorem msDouble_construction (p s : Int) :
    (∃ m, msDoubleInit (some p) none = .error (.argumentError m)) ∧
    (∃ m, msDoubleInit none (some s) = .error (.argumentError m)) ∧
    (msDoubleInit (some p) (some s) = .ok (.msDouble (some p) (some s)) ∧
      (ColType.msDouble (some p) (some s)).get_col_spec =
        "DOUBLE(" ++ toString p ++ ", " ++ toString s ++ ")") ∧
    (msDoubleInit none none = .ok (.msDouble none none) ∧
      (ColType.msDouble none none).get_col_spec = "DOUBLE") := by
  refine ⟨⟨_, rfl⟩, ⟨_, rfl⟩, ⟨?_, rfl⟩, ⟨?_, rfl⟩⟩
  · simp [msDoubleInit]
  · simp [msDoubleInit]

/-- Witness for `msDouble_construction` at `p = 10`, `s = 2`. -/
theorem msDouble_construction_witness :
    (msDoubleInit (some 10) (some 2) = .ok (.msDouble (some 10) (some 2)) ∧
      (ColType.msDouble (some 10) (some 2)).get_col_spec = "DOUBLE(10, 2)") ∧
    (∃ m, msDoubleInit (some 10) none = .error (.argumentError m)) := by
  refine ⟨⟨(msDouble_construction 10 2).2.2.1.1, (msDouble_construction 10 2).2.2.1.2⟩, ?_⟩
  exact (msDouble_construction 10 2).1

/-- C7: `MSBinary.get_col_spec` renders `"BINARY(<n>)"` exactly when a
length `n` is given with `n ≤ 255` (boundary included), and `"BLOB"` when
the length is absent or greater than 255. -/
theorem msBinary_col_spec (n : Int) :
    (n ≤ 255 → (ColType.msBinary (some n)).get_col_spec = "BINARY(" ++ toString n ++ ")") ∧
    (n > 255 → (ColType.msBinary (some n)).get_col_spec = "BLOB") ∧
    (ColType.msBinary none).get_col_spec = "BLOB" := by
  refine ⟨fun h => ?_, fun h => ?_, rfl⟩
  · simp [ColType.get_col_spec, h]
  · simp [ColType.get_col_spec, not_le.mpr h]

/-- Witness for `msBinary_col_spec` at the boundary `n = 255` and at
`n = 256`. -/
theorem msBinary_col_spec_witness :
    (ColType.msBinary (some 255)).get_col_spec = "BINARY(255)" ∧
    (ColType.msBinary (some 256)).get_col_spec = "BLOB" := by
  refine ⟨?_, ?_⟩
  · have h := (msBinary_col_spec 255).1 (by norm_num)
    simpa using h
  · exact (msBinary_col_spec 256).2.1 (by norm_num)

theorem dictGet_dictSet (d : List (String × String)) (k v n : String) :
    dictGet (dictSet d k v) n = if k = n then some v else dictGet d n := by
  induction d with
  | nil => simp [dictSet, dictGet]
  | cons p d ih =>
      by_cases hp : p.1 = k
      · by_cases h : k = n
        · simp [dictSet, dictGet, hp, h]
        · have hpn : ¬p.1 = n := fun hn => h (hp.symm.trans hn)
          simp [dictSet, dictGet, hp, h, hpn]
      · by_cases hn : p.1 = n
        · have hk : ¬k = n := fun h => hp (hn.trans h.symm)
          have hnk : ¬n = k := fun h => hp (hn.trans h)
          simp [dictSet, dictGet, hp, hn, hk, hnk]
        · simp [dictSet, dictGet, hp, hn, ih]

theorem dictGet_foldl (ms : List (List Char × List Char × List Char))
    (d : List (String × String)) (n : String) :
    dictGet (ms.foldl (fun d m =>
        dictSet d (String.mk m.1) (String.mk m.2.1 ++ "." ++ String.mk m.2.2)) d) n =
      match lastFKTarget ms n with
      | some t => some t
      | none => dictGet d n := by
  induction ms generalizing d with
  | nil => simp [lastFKTarget]
  | cons m rest ih =>
      rw [List.foldl_cons, ih, lastFKTarget]
      rcases hr : lastFKTarget rest n with _ | t
      · rw [dictGet_dictSet]
        by_cases h : String.mk m.1 = n <;> simp [h]
      · rfl

/-- C2: on every DDL blob, looking a local column name up in the
foreign-key mapping built by `moretableinfo` yields the target
`<table>.<column>` of the last pattern match for that name (so one entry
per match, last-match-wins on duplicate local columns), and the mapping is
empty when there is no match. -/
theorem moretableinfo_fk_dict (rawDDL : String) (n : String) :
    dictGet (moretableinfo rawDDL).2 n = lastFKTarget (findFKs (pyStrip rawDDL.data)) n ∧
    (findFKs (pyStrip rawDDL.data) = [] → (moretableinfo rawDDL).2 = []) := by
  constructor
  · have h := dictGet_foldl (findFKs (pyStrip rawDDL.data)) [] n
    rcases hl : lastFKTarget (findFKs (pyStrip rawDDL.data)) n with _ | t <;>
      simp [hl, dictGet] at h <;>
      simpa [moretableinfo, buildFKDict] using h
  · intro h
    simp [moretableinfo, buildFKDict, h]

/-- Witness for `moretableinfo_fk_dict`: a blob with two matches on the
same local column resolves to the later target, and a blob with no match
gives the empty mapping. -/
theorem moretableinfo_fk_dict_witness :
    dictGet (moretableinfo "FOREIGN KEY (`a`) REFERENCES `t` (`x`), FOREIGN KEY (`a`) REFERENCES `u` (`y`)").2 "a" =
      lastFKTarget (findFKs (pyStrip "FOREIGN KEY (`a`) REFERENCES `t` (`x`), FOREIGN KEY (`a`) REFERENCES `u` (`y`)".data)) "a" ∧
    dictGet (moretableinfo "FOREIGN KEY (`a`) REFERENCES `t` (`x`), FOREIGN KEY (`a`) REFERENCES `u` (`y`)").2 "a" =
      some "u.y" ∧
    (moretableinfo "CREATE TABLE t (x int)").2 = [] := by
  refine ⟨(moretableinfo_fk_dict _ "a").1, by decide,
    (moretableinfo_fk_dict "CREATE TABLE t (x int)" "a").2 (by decide)⟩

theorem lastParenTail_eq_none (s : List Char) (h : s.contains ')' = false) :
    lastParenTail s = none := by
  induction s with
  | nil => rfl
  | cons c rest ih =>
      simp [List.contains_cons] at h
      simp [lastParenTail, ih (by simp [h.2])]
      exact fun hc => absurd hc.symm h.1

theorem lastParenTail_append (a b : List Char) (h : b.contains ')' = false) :
    lastParenTail (a ++ ')' :: b) = some (')' :: b) := by
  have hb : ')' ∉ b := by
    intro hmem
    have hc : b.contains ')' = true := List.elem_iff.mpr hmem
    rw [hc] at h
    cases h
  induction a with
  | nil =>
      simp [lastParenTail]
      exact fun hc => absurd hc hb
  | cons c a' ih =>
      have hmem : (a' ++ ')' :: b).contains ')' = true :=
        List.elem_iff.mpr (List.mem_append.mpr (.inr (List.mem_cons_self _ _)))
      simp [lastParenTail, hmem, ih]

theorem greedyCap_word (w : List Char) (hne : w ≠ []) (hall : w.all isWordChar = true) :
    greedyCap w = some w := by
  have htake : w.takeWhile (fun c => c ≠ '\n') = w := by
    rw [List.takeWhile_eq_self_iff]
    intro a ha
    have h := List.all_eq_true.mp hall a ha
    simp only [ne_eq, decide_eq_true_eq]
    rintro rfl
    exact absurd h (by decide)
  obtain ⟨k, hk⟩ : ∃ k, w.length = k + 1 :=
    ⟨w.length - 1, (Nat.succ_pred_eq_of_pos (List.length_pos.mpr hne)).symm⟩
  have hlt : k < w.length := by omega
  have h1 : isWordAt w (k + 1) = false := by
    have hnone : w[k + 1]? = none := by
      rw [List.getElem?_eq_none]
      omega
    simp [isWordAt, hnone]
  have h2 : isWordAt w k = true := by
    rw [isWordAt, List.get?_eq_get hlt]
    exact List.all_eq_true.mp hall _ (List.get_mem w k hlt)
  have hb : boundaryAt w (k + 1) = true := by
    simp [boundaryAt, h1, h2]
  rw [greedyCap, htake, hk]
  simp only [greedyCapAux, hb, if_true]
  rw [← hk, List.take_length]

theorem engineScan_step (pw : Bool) (c : Char) (rest : List Char)
    (h : tryEngineMarker pw (c :: rest) = none) :
    engineScan pw (c :: rest) = engineScan (isWordChar c) rest := by
  simp only [engineScan, h]

theorem engineFromTail_close_paren_type (w : List Char) (v : List Char)
    (h : greedyCap w = some v) :
    engineFromTail ((") TYPE=").data ++ w) = some v := by
  show engineScan false (')' :: ' ' :: 'T' :: 'Y' :: 'P' :: 'E' :: '=' :: w) = some v
  rw [engineScan_step false ')' _ rfl]
  show engineScan false (' ' :: 'T' :: 'Y' :: 'P' :: 'E' :: '=' :: w) = some v
  rw [engineScan_step false ' ' _ rfl]
  show engineScan false ('T' :: 'Y' :: 'P' :: 'E' :: '=' :: w) = some v
  simp only [engineScan,
    show tryEngineMarker false ('T' :: 'Y' :: 'P' :: 'E' :: '=' :: w) = greedyCap w from rfl, h]

/-- C5 (amended): the storage-engine extraction returns the empty string
when the blob has no `)`; the text searched is exactly the suffix starting
at the last `)` of the blob (the one no later `)` follows); a failed
marker search also yields the empty string; and when the text after a
`TYPE=` marker in that suffix is a nonempty bareword running to the end of
the blob, exactly that bareword is returned.  (The capture is greedy — it
runs to the last word boundary of the line, so it equals the bareword only
when nothing follows it; see the counterexample.) -/
theorem tabletype_extraction (s a b w : List Char) :
    (s.contains ')' = false → tableTypeOf s = "") ∧
    (b.contains ')' = false → lastParenTail (a ++ ')' :: b) = some (')' :: b)) ∧
    (∀ t, lastParenTail s = some t → engineFromTail t = none → tableTypeOf s = "") ∧
    (a.contains ')' = false → w ≠ [] → w.all isWordChar = true →
      tableTypeOf (a ++ (") TYPE=").data ++ w) = String.mk w) := by
  refine ⟨fun h => ?_, fun h => lastParenTail_append a b h, fun t h1 h2 => ?_,
    fun ha hne hall => ?_⟩
  · rw [tableTypeOf, lastParenTail_eq_none s h]
  · rw [tableTypeOf, h1]
    simp [h2]
  · have hbw : (" TYPE=".data ++ w).contains ')' = false := by
      cases hc : (" TYPE=".data ++ w).contains ')' with
      | false => rfl
      | true =>
          exfalso
          rcases List.mem_append.mp (List.elem_iff.mp hc) with h | h
          · exact absurd h (by decide)
          · exact absurd (List.all_eq_true.mp hall ')' h) (by decide)
    have hsplit : a ++ (") TYPE=").data ++ w = a ++ ')' :: (" TYPE=".data ++ w) := by
      rw [List.append_assoc]
      rfl
    rw [hsplit, tableTypeOf, lastParenTail_append a _ hbw]
    have he : engineFromTail (')' :: ' ' :: 'T' :: 'Y' :: 'P' :: 'E' :: '=' :: w) = some w :=
      engineFromTail_close_paren_type w w (greedyCap_word w hne hall)
    simp [he]

/-- Witness for `tabletype_extraction` on concrete blobs. -/
theorem tabletype_extraction_witness :
    tableTypeOf "no paren".data = "" ∧
    lastParenTail ("x(".data ++ ')' :: " y".data) = some (')' :: " y".data) ∧
    tableTypeOf ") nothing here".data = "" ∧
    tableTypeOf ("CREATE TABLE t (x int".data ++ (") TYPE=").data ++ "InnoDB".data) = "InnoDB" := by
  refine ⟨(tabletype_extraction "no paren".data [] [] []).1 (by decide),
    (tabletype_extraction [] "x(".data " y".data []).2.1 (by decide),
    (tabletype_extraction ") nothing here".data [] [] []).2.2.1 ") nothing here".data
      (by decide) (by decide), ?_⟩
  have h := (tabletype_extraction [] "CREATE TABLE t (x int".data [] "InnoDB".data).2.2.2
    (by decide) (by decide) (by decide)
  simpa using h

/-- C5 counterexample: the capture after the marker is greedy, so with
trailing options after `TYPE=InnoDB` the extraction does NOT return the
bareword `"InnoDB"` — it returns everything to the last word boundary. -/
theorem tabletype_not_bareword :
    (moretableinfo "CREATE TABLE t (a int) TYPE=InnoDB ROW_FORMAT=FIXED").1 =
      "InnoDB ROW_FORMAT=FIXED" ∧
    (moretableinfo "CREATE TABLE t (a int) TYPE=InnoDB ROW_FORMAT=FIXED").1 ≠ "InnoDB" := by
  constructor <;> decide

/-- C10: rendering with absent numeric arguments does not fail and does not
validate presence: `MSNumeric` with both attributes `None` renders the
literal `"NUMERIC(None, None)"` and `MSString` with no length renders
`"VARCHAR(None)"`. -/
theorem render_none_literal :
    (ColType.msNumeric none none).get_col_spec = "NUMERIC(None, None)" ∧
    (ColType.msString none).get_col_spec = "VARCHAR(None)" :=
  ⟨rfl, rfl⟩

/-- C3: the rendered column definition decomposes into the fixed
cumulative clause order name/type, DEFAULT, NOT NULL, PRIMARY KEY,
AUTO_INCREMENT, inline FOREIGN KEY — and the `" AUTO_INCREMENT"` part is
present if and only if the column is a primary key that is the table's
first primary key, has no foreign key attached and has an
integer-category type (so the same column with a foreign key renders
without the marker, while the other clauses are unaffected). -/
theorem column_spec_decomposition (c : DDLColumn) (opk fpk : Bool) :
    get_column_specification c opk fpk =
      c.name ++ " " ++ c.ctype.get_col_spec
      ++ (match c.default with | some d => " DEFAULT " ++ d | none => "")
      ++ (if c.nullable then "" else " NOT NULL")
      ++ (if c.primaryKey && !opk then " PRIMARY KEY" else "")
      ++ (if c.primaryKey && (c.foreignKey.isNone && fpk && c.ctype.isIntegerCategory)
          then " AUTO_INCREMENT" else "")
      ++ (match c.foreignKey with
          | some fk => ", FOREIGN KEY (" ++ c.name ++ ") REFERENCES " ++
              fk.tableName ++ "(" ++ fk.columnName ++ ")"
          | none => "") := by
  obtain ⟨nm, ty, df, nl, pk, fk⟩ := c
  have m1 : ∀ x : String, " NOT NULL" ++ (" PRIMARY KEY" ++ x) = " NOT NULL PRIMARY KEY" ++ x := by
    intro x
    rw [← String.append_assoc]
    rfl
  have m2 : ∀ x : String, " NOT NULL" ++ (" AUTO_INCREMENT" ++ x) = " NOT NULL AUTO_INCREMENT" ++ x := by
    intro x
    rw [← String.append_assoc]
    rfl
  have m3 : ∀ x : String, " NOT NULL" ++ (", FOREIGN KEY (" ++ x) = " NOT NULL, FOREIGN KEY (" ++ x := by
    intro x
    rw [← String.append_assoc]
    rfl
  have m4 : ∀ x : String, " PRIMARY KEY" ++ (" AUTO_INCREMENT" ++ x) = " PRIMARY KEY AUTO_INCREMENT" ++ x := by
    intro x
    rw [← String.append_assoc]
    rfl
  have m5 : ∀ x : String, " PRIMARY KEY" ++ (", FOREIGN KEY (" ++ x) = " PRIMARY KEY, FOREIGN KEY (" ++ x := by
    intro x
    rw [← String.append_assoc]
    rfl
  have m7 : ∀ x : String, " NOT NULL" ++ (" PRIMARY KEY AUTO_INCREMENT" ++ x) = " NOT NULL PRIMARY KEY AUTO_INCREMENT" ++ x := by
    intro x
    rw [← String.append_assoc]
    rfl
  have m8 : ∀ x : String, " NOT NULL" ++ (" PRIMARY KEY, FOREIGN KEY (" ++ x) = " NOT NULL PRIMARY KEY, FOREIGN KEY (" ++ x := by
    intro x
    rw [← String.append_assoc]
    rfl
  have m9 : ∀ x : String, " NOT NULL PRIMARY KEY" ++ (", FOREIGN KEY (" ++ x) = " NOT NULL PRIMARY KEY, FOREIGN KEY (" ++ x := by
    intro x
    rw [← String.append_assoc]
    rfl
  rcases df with _ | d <;> rcases fk with _ | fk <;> cases nl <;> cases pk <;>
    cases opk <;> cases fpk <;> cases hI : ty.isIntegerCategory <;>
      simp [get_column_specification, hI, String.append_empty, String.append_assoc,
        m1, m2, m3, m4, m5, m7, m8, m9]

theorem matchTypeString_word (c : Char) (cs : List Char) (hw : isWordChar c = true) :
    ∃ a, matchTypeString (c :: cs) = some ((c :: cs).takeWhile isWordChar, a) := by
  simp only [matchTypeString, hw, if_true]
  split
  · split
    · exact ⟨_, rfl⟩
    · exact ⟨_, rfl⟩
  · exact ⟨_, rfl⟩

/-- C6: a row whose type keyword is not in `ischema_names` does not fail:
the keyword resolves to the `MSString` fallback, the row still yields a
column, and the remaining rows parse exactly as they would on their
own. -/
theorem unknown_keyword_falls_back (fkD : List (String × String))
    (nm : Option String) (ty : String) (v2 v3 v4 : Option String)
    (c : Char) (cs : List Char)
    (hty : ty.data = c :: cs) (hw : isWordChar c = true)
    (hunk : ischemaLookup (String.mk (ty.data.takeWhile isWordChar)) = none) :
    ∃ col, processRow fkD [nm, some ty, v2, v3, v4] = .ok col ∧
      (∃ l, col.coltype = ColType.msString l) ∧
      (∀ rest cols, reflectRows fkD rest = .ok cols →
        reflectRows fkD ([nm, some ty, v2, v3, v4] :: rest) = .ok (col :: cols)) := by
  obtain ⟨a, hm⟩ := matchTypeString_word c cs hw
  rw [← hty] at hm
  rw [hty] at hunk
  rw [← hty] at hunk
  cases a with
  | none =>
      have hp : processRow fkD [nm, some ty, v2, v3, v4] =
          .ok ⟨nm, .msString none, nm.bind (fun s => dictGet fkD s),
               decide (v3 = some "PRI"), decide (v2 = some "YES"), v4⟩ := by
        simp [processRow, hm, hunk, defaultCtor]
      exact ⟨_, hp, ⟨none, rfl⟩, fun rest cols hrest => by
        simp [reflectRows, hp, hrest, Except.map]⟩
  | some args =>
      have hp : processRow fkD [nm, some ty, v2, v3, v4] =
          .ok ⟨nm, .msString ((findIntRuns args).map digitRunToInt).head?,
               nm.bind (fun s => dictGet fkD s),
               decide (v3 = some "PRI"), decide (v2 = some "YES"), v4⟩ := by
        simp [processRow, hm, hunk, applyCtor]
      exact ⟨_, hp, ⟨_, rfl⟩, fun rest cols hrest => by
        simp [reflectRows, hp, hrest, Except.map]⟩

/-- Witness for `unknown_keyword_falls_back` on the row
`("c1", "sometype(5)", "NO", "", NULL)`. -/
theorem unknown_keyword_falls_back_witness :
    ∃ col, processRow [] [some "c1", some "sometype(5)", some "NO", some "", none] = .ok col ∧
      (∃ l, col.coltype = ColType.msString l) ∧
      (∀ rest cols, reflectRows [] rest = .ok cols →
        reflectRows [] ([some "c1", some "sometype(5)", some "NO", some "", none] :: rest) =
          .ok (col :: cols)) :=
  unknown_keyword_falls_back [] (some "c1") "sometype(5)" (some "NO") (some "") none
    's' "ometype(5)".data (by decide) (by decide) (by decide)

theorem reflectLoop_append (fkD : List (String × String))
    (pre : List (List (Option String))) (cols : List ReflectedColumn)
    (h : reflectRows fkD pre = .ok cols) (t : SATable) (rest : List (List (Option String))) :
    reflectLoop fkD t (pre ++ rest) =
      reflectLoop fkD { t with columns := t.columns ++ cols } rest := by
  induction pre generalizing t cols with
  | nil =>
      simp [reflectRows] at h
      subst h
      simp
  | cons r pre ih =>
      rw [reflectRows] at h
      rcases hp : processRow fkD r with e | c
      · rw [hp] at h
        cases h
      · rw [hp] at h
        rcases hr : reflectRows fkD pre with e | cs
        · rw [hr] at h
          cases h
        · rw [hr] at h
          simp only [Except.map] at h
          obtain rfl : c :: cs = cols := by injection h
          simp only [List.cons_append, reflectLoop, hp, List.append_eq]
          rw [ih cs hr]
          simp [List.append_assoc]

theorem processRow_short (fkD : List (String × String)) (row : List (Option String))
    (h : row.length < 5) : processRow fkD row = .error .indexError := by
  rcases row with _ | ⟨a, _ | ⟨b, _ | ⟨c, _ | ⟨d, rest⟩⟩⟩⟩
  · rfl
  · rfl
  · rfl
  · rfl
  · obtain rfl : rest = [] := by
      simp at h
      exact List.length_eq_zero.mp (by omega)
    rfl

/-- C8 counterexample: a describe row with fewer than five fields makes
`reflecttable` raise a plain `IndexError` — not a distinct
malformed-introspection error — and the table is NOT left unchanged: the
storage engine is already attached and the rows before the malformed one
are already merged. -/
theorem reflecttable_partial_merge :
    reflecttable ⟨"tbl", none, []⟩
        (some [some "tbl", some "CREATE TABLE tbl (a int) TYPE=MyISAM"])
        [[some "a", some "int(11)", some "YES", some "", none], [some "b"]] =
      (⟨"tbl", some "MyISAM",
        [⟨some "a", .msInteger, none, false, true, none⟩]⟩, some .indexError) ∧
    (reflecttable ⟨"tbl", none, []⟩
        (some [some "tbl", some "CREATE TABLE tbl (a int) TYPE=MyISAM"])
        [[some "a", some "int(11)", some "YES", some "", none], [some "b"]]).1 ≠
      ⟨"tbl", none, []⟩ := by
  constructor <;> decide

/-- C8 (amended): handed a describe row with fewer than five positional
fields, `reflecttable` fails with a generic `IndexError` (no distinct
malformed-introspection error exists), after having already attached the
storage-engine value and merged every row preceding the malformed one into
the table (a partial merge, not an atomic abort). -/
theorem reflecttable_short_row (t : SATable) (scrow : List (Option String)) (ddl : String)
    (pre post : List (List (Option String))) (bad : List (Option String))
    (cols : List ReflectedColumn)
    (hsc : scrow.get? 1 = some (some ddl))
    (hpre : reflectRows (moretableinfo ddl).2 pre = .ok cols)
    (hbad : bad.length < 5) :
    reflecttable t (some scrow) (pre ++ bad :: post) =
      ({ name := t.name, mysqlEngine := some (moretableinfo ddl).1,
         columns := t.columns ++ cols }, some PyErr.indexError) := by
  simp only [reflecttable, hsc]
  rw [reflectLoop_append _ pre cols hpre]
  simp only [reflectLoop, processRow_short _ bad hbad]

/-- Witness for `reflecttable_short_row` on a concrete table, DDL blob and
row list. -/
theorem reflecttable_short_row_witness :
    reflecttable ⟨"tbl", none, []⟩
        (some [some "tbl", some "CREATE TABLE tbl (a int) TYPE=InnoDB"])
        ([[some "a", some "int(11)", some "YES", some "", none]] ++ [some "b"] :: []) =
      ({ name := "tbl",
         mysqlEngine := some (moretableinfo "CREATE TABLE tbl (a int) TYPE=InnoDB").1,
         columns := [] ++ [⟨some "a", .msInteger, none, false, true, none⟩] },
       some PyErr.indexError) :=
  reflecttable_short_row ⟨"tbl", none, []⟩ [some "tbl", some "CREATE TABLE tbl (a int) TYPE=InnoDB"]
    "CREATE TABLE tbl (a int) TYPE=InnoDB"
    [[some "a", some "int(11)", some "YES", some "", none]] [] [some "b"]
    [⟨some "a", .msInteger, none, false, true, none⟩]
    (by decide) rfl (by decide)

/-- C9: with the cache attribute unset, every call to
`get_default_schema_name` raises `NameError` on the unbound module name
`text` and caches nothing, so no call ever succeeds — the first call can
never compute and memoize the value the way the memoization pattern
intends. -/
theorem get_default_schema_name_never_succeeds (r r' : String) :
    get_default_schema_name none r = (.error (.nameError "text"), none) ∧
    get_default_schema_name (get_default_schema_name none r).2 r' =
      (.error (.nameError "text"), none) :=
  ⟨rfl, rfl⟩

end MySQLDialect
